import Mathlib

/-!
Verification of the lightsync device-orchestration core: a shallow embedding
of the scene manager (`internal/scenes`), the device manager
(`internal/lights/manager.go`), the Hue Kelvin/mirek conversions
(`internal/lights`, Hue controller), and the webcam sensor monitor
(`internal/webcam/monitor.go`), with theorems about trigger exclusivity,
discovery merging, command routing, scene activation and edge-triggered
polling.

Modelling conventions:
- Go `float64` fields (brightness, HSB colour components) are embedded as `ℚ`;
  no theorem below depends on floating-point rounding.
- Go maps iterated by `range` are embedded as association lists; the list
  order stands for one iteration order, and theorems quantify over all lists,
  hence over all iteration orders.
- Go's `uuid.New()` is embedded as an explicit `newID` argument.
- Disk persistence (`store.save`) and network transports are outside the
  embedding: store operations are modelled as pure list transformations, and
  a brand controller is modelled by the functions the Manager calls on it.
- Go errors are strings; the error inductives below name the error categories
  the code produces (the spec's taxonomy: NotFound, Conflict, protocol).
-/

/-- HSB colour (`lights.Color`): hue, saturation, brightness. -/
structure Color where
  h : ℚ
  s : ℚ
  b : ℚ
deriving DecidableEq, Repr

/-- `lights.DeviceState`: power flag, brightness, optional colour, optional
Kelvin. -/
structure DeviceState where
  On : Bool
  Brightness : ℚ
  Color : Option Color := none
  Kelvin : Option Int := none
deriving DecidableEq, Repr

/-- `lights.Device`. `LastSeen time.Time` is omitted: wall-clock time is
outside the embedding and no claim reads it. -/
structure Device where
  ID : String
  Brand : String
  Name : String
  Model : String := ""
  LastIP : String := ""
  SupportsColor : Bool := false
  SupportsKelvin : Bool := false
  MinKelvin : Int := 0
  MaxKelvin : Int := 0
  KelvinStep : Int := 0
  FirmwareVersion : String := ""
  Room : String := ""
deriving DecidableEq, Repr

/-- `store.Scene`: identity, name, trigger, device-state map (association
list), optional global colour/Kelvin override. -/
structure Scene where
  ID : String
  Name : String
  Trigger : String
  Devices : List (String × DeviceState)
  GlobalColor : Option Color := none
  GlobalKelvin : Option Int := none
deriving DecidableEq, Repr

/-! ## Hue Kelvin/mirek conversions (Hue controller)

Go's `/` on `int` truncates toward zero; `Int.tdiv` is the same operation.
Both operands are positive at every division below (the clamp in
`kelvinToMirek`, the `mirek <= 0` guard in `mirekToKelvin`). -/

/-- `kelvinToMirek`: clamp Kelvin to [2000, 6535], then `1000000 / kelvin`
with Go integer (truncating) division. -/
def kelvinToMirek (kelvin : Int) : Int :=
  let k1 := if kelvin < 2000 then 2000 else kelvin
  let k2 := if k1 > 6535 then 6535 else k1
  Int.tdiv 1000000 k2

/-- `mirekToKelvin`: `1000000 / mirek` with Go integer (truncating) division;
non-positive mirek falls back to the default 4000 K. -/
def mirekToKelvin (mirek : Int) : Int :=
  if mirek ≤ 0 then 4000 else Int.tdiv 1000000 mirek

/-! ## Sensor monitor (`internal/webcam/monitor.go`)

The monitor's loop state that the tick handler reads and writes: the last
observed boolean (`active`, zero-initialised to `false` by `NewMonitor`) and
the `enabled` flag. The probe result for each tick is an argument; the
change-handler invocation is the `Option Bool` component of the result
(`some v` = handler called with `v`, `none` = not called). -/

structure MonitorState where
  active : Bool
  enabled : Bool
deriving DecidableEq, Repr

/-- The initial monitor state built by `NewMonitor`: `enabled` true, `active`
at Go's zero value `false`. -/
def NewMonitor : MonitorState := ⟨false, true⟩

/-- One `ticker.C` iteration of `Monitor.Start`: skip when disabled;
otherwise probe, compare with the stored value, store the probe result and
invoke the handler exactly when it differed. -/
def tick (s : MonitorState) (probe : Bool) : MonitorState × Option Bool :=
  if s.enabled then
    let changed := s.active != probe
    ({ s with active := probe }, if changed then some probe else none)
  else (s, none)

/-- Run the loop over a list of per-tick probe results, collecting the
handler invocations in order. -/
def runTicks : MonitorState → List Bool → MonitorState × List Bool
  | s, [] => (s, [])
  | s, p :: rest =>
      let r := tick s p
      let rest' := runTicks r.1 rest
      (rest'.1, r.2.toList ++ rest'.2)

/-- `Monitor.CheckNow`: probe immediately, overwrite the stored value, return
the probe result. The function body contains no call to the change handler,
so the invocation component is always `none`. -/
def checkNow (s : MonitorState) (probe : Bool) : MonitorState × Bool × Option Bool :=
  ({ s with active := probe }, probe, none)

/-! ## Scene store (`internal/store/store.go`)

The persisted scene list. `Store.save` (disk I/O) is outside the embedding:
the operations are the pure list transformations the Go methods perform on
`config.Scenes` under the store lock. -/

/-- `Store.UpsertScene`: replace the first scene with the same ID (the Go
loop breaks at the first match), else append. -/
def UpsertScene : List Scene → Scene → List Scene
  | [], scene => [scene]
  | sc :: rest, scene =>
      if sc.ID = scene.ID then scene :: rest
      else sc :: UpsertScene rest scene

/-- `Store.DeleteScene`: remove the first scene with the given ID (the Go
loop breaks after the first removal). -/
def deleteScene : List Scene → String → List Scene
  | [], _ => []
  | sc :: rest, id => if sc.ID = id then rest else sc :: deleteScene rest id

/-! ## Scene manager (`internal/scenes`, second revision of the file: the one
with `triggerInUse` and notify-before-apply) -/

/-- The scene manager's error categories (`fmt.Errorf` strings in Go; the
spec's taxonomy names them Conflict and NotFound). -/
inductive SceneError where
  | Conflict
  | NotFound
deriving DecidableEq, Repr

/-- `Manager.GetScene`: first stored scene with the given ID, if any. -/
def getScene (scenes : List Scene) (id : String) : Option Scene :=
  scenes.find? (fun s => s.ID == id)

/-- `Manager.triggerInUse`: an empty trigger is never in use; otherwise true
iff some stored scene other than `excludeID` carries the trigger. -/
def triggerInUse (scenes : List Scene) (trigger excludeID : String) : Bool :=
  if trigger == "" then false
  else scenes.any (fun s => s.ID != excludeID && s.Trigger == trigger)

/-- `Manager.CreateScene`: reject with Conflict when the trigger is in use by
any scene (excludeID is the empty string); otherwise upsert a scene under the
fresh `newID` (Go: `uuid.New().String()`). Returns the result together with
the stored list after the call. -/
def CreateScene (scenes : List Scene) (newID name trigger : String)
    (devices : List (String × DeviceState)) (globalColor : Option Color)
    (globalKelvin : Option Int) : Except SceneError Scene × List Scene :=
  if triggerInUse scenes trigger ("") then (Except.error SceneError.Conflict, scenes)
  else
    let scene : Scene := ⟨newID, name, trigger, devices, globalColor, globalKelvin⟩
    (Except.ok scene, UpsertScene scenes scene)

/-- `Manager.UpdateScene`: reject with Conflict when the trigger is in use by
a scene other than the updated one; otherwise upsert. Returns the result
together with the stored list after the call. -/
def UpdateScene (scenes : List Scene) (scene : Scene) :
    Except SceneError Unit × List Scene :=
  if triggerInUse scenes scene.Trigger scene.ID then (Except.error SceneError.Conflict, scenes)
  else (Except.ok (), UpsertScene scenes scene)

/-- `Manager.DeleteScene` delegates to the store's delete. -/
def DeleteScene (scenes : List Scene) (id : String) : List Scene :=
  deleteScene scenes id

/-- How many stored scenes carry trigger `t`. -/
def countTrigger (scenes : List Scene) (t : String) : Nat :=
  scenes.countP (fun s => s.Trigger == t)

/-- The trigger-exclusivity invariant: at most one stored scene claims
`camera_on` and at most one claims `camera_off`. -/
def triggerInvariant (scenes : List Scene) : Prop :=
  countTrigger scenes ("camera_on") ≤ 1 ∧ countTrigger scenes ("camera_off") ≤ 1

/-! ### Scene activation

`Manager.ActivateScene` is embedded as a trace of the externally visible
steps, in program order: marking the active scene, the `onChange`
notification (when a handler is registered), and one
`lightManager.SetDeviceState` call per entry of the scene's device-state
map. The device manager's outcome for each call is abstracted by `setOk`
(the claims hold for every outcome); `ok` records the result the call
returned. -/

inductive SceneEvent where
  | markActive (id : String)
  | notify (scene : Scene)
  | setDevice (deviceID : String) (state : DeviceState) (ok : Bool)
deriving DecidableEq, Repr

/-- The activation fan-out loop: one `SetDeviceState` call per entry. A
failed call hits `continue`, which — like a successful one — just proceeds
to the next entry, so the recursion is unconditional. -/
def fanout (setOk : String → DeviceState → Bool) :
    List (String × DeviceState) → List SceneEvent
  | [] => []
  | (deviceID, st) :: rest =>
      SceneEvent.setDevice deviceID st (setOk deviceID st) :: fanout setOk rest

/-- What `ActivateScene` returns and does: the Go return value, the event
trace, and the `activeScene` field after the call (`active0` before it). -/
structure ActivateResult where
  result : Except SceneError Unit
  events : List SceneEvent
  activeScene : String
deriving Repr

/-- `Manager.ActivateScene`: look the scene up (NotFound stops everything);
then mark it active, notify the registered handler with the full scene
record, and only then fan out the device commands. -/
def ActivateScene (scenes : List Scene) (active0 : String) (hasHandler : Bool)
    (setOk : String → DeviceState → Bool) (id : String) : ActivateResult :=
  match getScene scenes id with
  | none => ⟨Except.error SceneError.NotFound, [], active0⟩
  | some scene =>
      ⟨Except.ok (),
        SceneEvent.markActive id ::
          ((if hasHandler then [SceneEvent.notify scene] else []) ++
            fanout setOk scene.Devices),
        id⟩

/-- The `SetDeviceState` calls an event trace contains, in order. -/
def setDeviceCalls (events : List SceneEvent) : List (String × DeviceState) :=
  events.filterMap (fun e =>
    match e with
    | SceneEvent.setDevice d st _ => some (d, st)
    | _ => none)

/-! ## Device manager (`internal/lights/manager.go`) -/

/-- The device manager's error categories ("no controller for brand %q" is
the spec's NotFound; controller-level failures are protocol errors). -/
inductive ManagerError where
  | NotFound (brand : String)
  | protocol (msg : String)
deriving DecidableEq, Repr

/-- A brand controller, as the Manager calls it: the command entry points of
the `Controller` interface (`Discover` and `Close` are handled separately). -/
structure Controller where
  SetState : String → DeviceState → Except ManagerError Unit
  GetState : String → Except ManagerError DeviceState
  TurnOn : String → Except ManagerError Unit
  TurnOff : String → Except ManagerError Unit

/-- `brandFromDeviceID`: `strings.SplitN(id, ":", 2)` yields a single part —
hence brand `""` — when the ID has no `:`; otherwise the brand is the text
before the first `:`. -/
def brandFromDeviceID (id : String) : String :=
  if id.toList.contains ':' then String.mk (id.toList.takeWhile (fun c => c != ':'))
  else String.mk []

/-- `Manager.controllerFor`: look the brand's controller up in the
`brand -> Controller` registry (embedded as a function). -/
def controllerFor (controllers : String → Option Controller) (deviceID : String) :
    Except ManagerError Controller :=
  match controllers (brandFromDeviceID deviceID) with
  | none => Except.error (ManagerError.NotFound (brandFromDeviceID deviceID))
  | some c => Except.ok c

/-- `Manager.SetDeviceState`: route by brand, then delegate. -/
def SetDeviceState (controllers : String → Option Controller) (deviceID : String)
    (state : DeviceState) : Except ManagerError Unit :=
  match controllerFor controllers deviceID with
  | Except.error e => Except.error e
  | Except.ok c => c.SetState deviceID state

/-- `Manager.GetDeviceState`: route by brand, then delegate. -/
def GetDeviceState (controllers : String → Option Controller) (deviceID : String) :
    Except ManagerError DeviceState :=
  match controllerFor controllers deviceID with
  | Except.error e => Except.error e
  | Except.ok c => c.GetState deviceID

/-- `Manager.TurnOn`: route by brand, then delegate. -/
def TurnOn (controllers : String → Option Controller) (deviceID : String) :
    Except ManagerError Unit :=
  match controllerFor controllers deviceID with
  | Except.error e => Except.error e
  | Except.ok c => c.TurnOn deviceID

/-- `Manager.TurnOff`: route by brand, then delegate. -/
def TurnOff (controllers : String → Option Controller) (deviceID : String) :
    Except ManagerError Unit :=
  match controllerFor controllers deviceID with
  | Except.error e => Except.error e
  | Except.ok c => c.TurnOff deviceID

/-! ### Discovery aggregation and registry merge

`DiscoverAllWithProgress` runs every controller's `Discover` concurrently and
folds the outcomes under one mutex. The list of per-controller outcomes below
stands for the (nondeterministic) completion order; theorems quantify over
it. The device registry `deviceID -> Device` is embedded as a function. -/

/-- Fold the per-controller `Discover` outcomes: successes contribute their
devices to the merged list, failures contribute an error entry. -/
def collectResults : List (Except String (List Device)) → List Device × List String
  | [] => ([], [])
  | Except.error e :: rest =>
      let r := collectResults rest
      (r.1, e :: r.2)
  | Except.ok ds :: rest =>
      let r := collectResults rest
      (ds ++ r.1, r.2)

/-- One iteration of the registry-merge loop: a device already present keeps
its stored user-assigned `Room` (`d.Room = existing.Room`), then the entry is
overwritten. -/
def mergeDevice (reg : String → Option Device) (d : Device) : Device :=
  match reg d.ID with
  | some existing => { d with Room := existing.Room }
  | none => d

/-- Store the merged device under its ID. -/
def discoverStep (reg : String → Option Device) (d : Device) :
    String → Option Device :=
  fun id => if id = d.ID then some (mergeDevice reg d) else reg id

/-- The whole registry-merge loop over the merged device list, in order. -/
def applyDiscovery : (String → Option Device) → List Device → String → Option Device
  | reg, [] => reg
  | reg, d :: rest => applyDiscovery (discoverStep reg d) rest

/-- `Manager.DiscoverAllWithProgress`: merge the discovered devices into the
registry, then return a hard failure exactly when at least one controller
errored and the merged list is empty; otherwise return the merged list. -/
def DiscoverAllWithProgress (reg : String → Option Device)
    (results : List (Except String (List Device))) :
    (String → Option Device) × Except String (List Device) :=
  let r := collectResults results
  let reg' := applyDiscovery reg r.1
  if r.2.length > 0 && r.1.length == 0 then (reg', Except.error ("discovery failed"))
  else (reg', Except.ok r.1)

/-- The last device of a discovery batch with the given ID, if any (the one
whose merge wins in the registry). -/
def lastWith? : List Device → String → Option Device
  | [], _ => none
  | d :: rest, id =>
      match lastWith? rest id with
      | some x => some x
      | none => if d.ID = id then some d else none

/-! ## Concrete instances (used by the witness and counterexample theorems) -/

/-- A simple full-on device state. -/
def stateOn : DeviceState := ⟨true, 1, none, none⟩

/-- A stored scene holding the `camera_on` trigger. -/
def sceneMeeting : Scene := ⟨("s1"), ("Meeting"), ("camera_on"), [(("lifx:d1"), stateOn)], none, none⟩

/-- A stored scene with the empty ID (storable through `UpdateScene`, which
validates nothing about the ID) holding the `camera_on` trigger. -/
def sceneLegacy : Scene := ⟨(""), ("Legacy"), ("camera_on"), [], none, none⟩

/-- Duplicate-ID pair: same ID `x`, only the second carries `camera_on`. -/
def sceneDupA : Scene := ⟨("x"), ("A"), (""), [], none, none⟩

/-- See `sceneDupA`. -/
def sceneDupB : Scene := ⟨("x"), ("B"), ("camera_on"), [], none, none⟩

/-- An update of scene `x` that carries `camera_on`. -/
def sceneDupU : Scene := ⟨("x"), ("C"), ("camera_on"), [], none, none⟩

/-- A registry entry with a user-assigned room. -/
def deviceStored : Device :=
  { ID := ("lifx:d1"), Brand := ("lifx"), Name := ("Desk"), Room := ("Office") }

/-- The same hardware as rediscovered (fresh descriptor, no room). -/
def deviceFound : Device :=
  { ID := ("lifx:d1"), Brand := ("lifx"), Name := ("Desk v2") }

/-- A one-entry device registry holding `deviceStored`. -/
def regStored : String → Option Device :=
  fun id => if id = ("lifx:d1") then some deviceStored else none

/-! ## Theorems -/

/-- C9: with the monitor enabled, each tick stores the probe result and fires
the change handler exactly when it differs from the stored value; the probe
sequence [false, false, true, true, false] from the initial state produces
exactly the two invocations true then false. -/
theorem monitor_edge_triggered :
    (∀ (a p : Bool),
        (tick ⟨a, true⟩ p).2 = (if p ≠ a then some p else none)
        ∧ (tick ⟨a, true⟩ p).1.active = p
        ∧ (tick ⟨a, true⟩ p).1.enabled = true)
    ∧ runTicks NewMonitor [false, false, true, true, false]
        = (⟨false, true⟩, [true, false]) := by
  decide

/-- C10: `CheckNow` returns the probe result and overwrites the stored value
but never invokes the change handler, and a following loop tick that reads
the same value does not fire the handler either. -/
theorem checkNow_never_fires_handler :
    ∀ (a e p : Bool),
      (checkNow ⟨a, e⟩ p).2.1 = p
      ∧ (checkNow ⟨a, e⟩ p).1 = ⟨p, e⟩
      ∧ (checkNow ⟨a, e⟩ p).2.2 = none
      ∧ (tick (checkNow ⟨a, e⟩ p).1 p).2 = none := by
  decide

/-- C3, counterexample: the conversions truncate rather than round to
nearest (154 is strictly nearer to 1000000/6500 than the returned 153), and
the round trip misses 2700 by 2 and 6500 by 35 — both beyond the claimed
tolerance of 1. -/
theorem kelvin_mirek_roundtrip_cex :
    kelvinToMirek 6500 = 153
    ∧ (1000000 - 153 * 6500 : Int) = 5500
    ∧ (154 * 6500 - 1000000 : Int) = 1000
    ∧ (1000 : Int) < 5500
    ∧ mirekToKelvin (kelvinToMirek 2700) = 2702
    ∧ mirekToKelvin (kelvinToMirek 6500) = 6535
    ∧ ¬ ((mirekToKelvin (kelvinToMirek 2700) - 2700).natAbs ≤ 1)
    ∧ ¬ ((mirekToKelvin (kelvinToMirek 6500) - 6500).natAbs ≤ 1) := by
  decide

/-- C3, amended: both conversions use Go's truncating integer division — in
the clamp range the result is the floor of 1000000/k, characterised by
`q * k ≤ 1000000 < q * k + k` — and the round trips for 2700, 4000 and 6500
give 2702, 4000 and 6535. -/
theorem kelvin_mirek_truncating (k : Int) (h1 : 2000 ≤ k) (h2 : k ≤ 6535) :
    (kelvinToMirek k * k ≤ 1000000 ∧ 1000000 < kelvinToMirek k * k + k)
    ∧ mirekToKelvin (kelvinToMirek 2700) = 2702
    ∧ mirekToKelvin (kelvinToMirek 4000) = 4000
    ∧ mirekToKelvin (kelvinToMirek 6500) = 6535 := by
  have hk : kelvinToMirek k = Int.tdiv 1000000 k := by
    simp only [kelvinToMirek]
    rw [if_neg (not_lt.mpr h1), if_neg (not_lt.mpr h2)]
  have htd : Int.tdiv 1000000 k = 1000000 / k :=
    Int.tdiv_eq_ediv (by norm_num) (by linarith)
  have hmod := Int.ediv_add_emod 1000000 k
  have h0 : 0 ≤ 1000000 % k := Int.emod_nonneg _ (by linarith)
  have hlt : 1000000 % k < k := Int.emod_lt_of_pos _ (by linarith)
  refine ⟨⟨?_, ?_⟩, by decide, by decide, by decide⟩
  · rw [hk, htd]; nlinarith
  · rw [hk, htd]; nlinarith

/-- C3, witness for `kelvin_mirek_truncating` at k = 3000. -/
theorem kelvin_mirek_truncating_wit :
    (kelvinToMirek 3000 * 3000 ≤ 1000000 ∧ 1000000 < kelvinToMirek 3000 * 3000 + 3000)
    ∧ mirekToKelvin (kelvinToMirek 2700) = 2702
    ∧ mirekToKelvin (kelvinToMirek 4000) = 4000
    ∧ mirekToKelvin (kelvinToMirek 6500) = 6535 :=
  kelvin_mirek_truncating 3000 (by norm_num) (by norm_num)

/-- A character list containing a `:` after the prefix: `contains` finds it. -/
theorem contains_append_colon (l1 l2 : List Char) :
    (l1 ++ ':' :: l2).contains ':' = true := by
  induction l1 with
  | nil => simp [List.contains_cons]
  | cons a as ih => simp [List.contains_cons, ih]

/-- `takeWhile (· != ':')` over a colon-free prefix followed by `:` returns
exactly the prefix. -/
theorem takeWhile_append_colon (l1 l2 : List Char) (h : l1.contains ':' = false) :
    (l1 ++ ':' :: l2).takeWhile (fun c => c != ':') = l1 := by
  induction l1 with
  | nil => simp [List.takeWhile_cons]
  | cons a as ih =>
    rw [List.contains_cons, Bool.or_eq_false_iff] at h
    have hax : ¬ (':' = a) := by simpa using h.1
    have ha : (a != ':') = true := by
      simp only [bne_iff_ne, ne_eq]
      exact fun e => hax e.symm
    simp [List.takeWhile_cons, ha, ih h.2]

/-- C7: every device-manager command extracts the brand tag (the text before
the first `:`; the empty string when the ID has no `:`) and dispatches to the
registered controller for it; with no controller registered for that brand
the command returns the NotFound "no controller for brand" error and no
controller function is consulted. -/
theorem manager_routes_by_brand (controllers : String → Option Controller)
    (deviceID : String) (st : DeviceState) :
    (controllers (brandFromDeviceID deviceID) = none →
        SetDeviceState controllers deviceID st
          = Except.error (ManagerError.NotFound (brandFromDeviceID deviceID))
        ∧ GetDeviceState controllers deviceID
          = Except.error (ManagerError.NotFound (brandFromDeviceID deviceID))
        ∧ TurnOn controllers deviceID
          = Except.error (ManagerError.NotFound (brandFromDeviceID deviceID))
        ∧ TurnOff controllers deviceID
          = Except.error (ManagerError.NotFound (brandFromDeviceID deviceID)))
    ∧ (∀ c, controllers (brandFromDeviceID deviceID) = some c →
        SetDeviceState controllers deviceID st = c.SetState deviceID st
        ∧ GetDeviceState controllers deviceID = c.GetState deviceID
        ∧ TurnOn controllers deviceID = c.TurnOn deviceID
        ∧ TurnOff controllers deviceID = c.TurnOff deviceID)
    ∧ (deviceID.toList.contains ':' = false → brandFromDeviceID deviceID = "")
    ∧ (∀ brand rest : String, brand.toList.contains ':' = false →
        brandFromDeviceID (brand ++ String.mk [':'] ++ rest) = brand) := by
  refine ⟨?_, ?_, ?_, ?_⟩
  · intro h
    simp [SetDeviceState, GetDeviceState, TurnOn, TurnOff, controllerFor, h]
  · intro c h
    simp [SetDeviceState, GetDeviceState, TurnOn, TurnOff, controllerFor, h]
  · intro h
    simp only [brandFromDeviceID]
    rw [if_neg (by rw [h]; simp)]
  · intro brand rest h
    have hdata : (brand ++ String.mk [':'] ++ rest).toList
        = brand.toList ++ ':' :: rest.toList := by
      show (brand ++ String.mk [':'] ++ rest).data = brand.data ++ ':' :: rest.data
      rw [String.data_append, String.data_append]
      simp
    simp only [brandFromDeviceID, hdata]
    rw [if_pos (by rw [contains_append_colon]), takeWhile_append_colon _ _ h]
    exact String.ext rfl

/-- The error accumulator of `collectResults` is non-empty exactly when some
controller outcome was an error. -/
theorem collectResults_errs (results : List (Except String (List Device))) :
    (collectResults results).2 ≠ [] ↔ ∃ e, Except.error e ∈ results := by
  induction results with
  | nil => simp [collectResults]
  | cons head tail ih =>
    cases head with
    | error e => simp [collectResults]
    | ok ds => simpa [collectResults] using ih

/-- The merged device list of `collectResults` is empty exactly when every
successful controller outcome carried no devices. -/
theorem collectResults_devices (results : List (Except String (List Device))) :
    (collectResults results).1 = [] ↔ ∀ ds, Except.ok ds ∈ results → ds = [] := by
  induction results with
  | nil => simp [collectResults]
  | cons head tail ih =>
    cases head with
    | error e => simpa [collectResults] using ih
    | ok ds => simp [collectResults, ih]

/-- C2: `DiscoverAllWithProgress` returns a hard failure iff at least one
controller's `Discover` errored and the merged device list is empty; in every
other case it returns the merged (possibly partial) list with no error. The
last two parts tie the folded accumulators to the per-controller outcomes. -/
theorem discoverAll_hard_failure_iff (reg : String → Option Device)
    (results : List (Except String (List Device))) :
    ((∃ e, (DiscoverAllWithProgress reg results).2 = Except.error e)
      ↔ (collectResults results).2 ≠ [] ∧ (collectResults results).1 = [])
    ∧ ((collectResults results).1 ≠ [] ∨ (collectResults results).2 = [] →
        (DiscoverAllWithProgress reg results).2 = Except.ok (collectResults results).1)
    ∧ ((collectResults results).2 ≠ [] ↔ ∃ e, Except.error e ∈ results)
    ∧ ((collectResults results).1 = [] ↔ ∀ ds, Except.ok ds ∈ results → ds = []) := by
  refine ⟨?_, ?_, collectResults_errs results, collectResults_devices results⟩
  · rcases hc : collectResults results with ⟨ds, es⟩
    simp only [DiscoverAllWithProgress, hc]
    cases es with
    | nil => simp
    | cons e es' =>
      cases ds with
      | nil => simp
      | cons d ds' => simp
  · rcases hc : collectResults results with ⟨ds, es⟩
    simp only [DiscoverAllWithProgress, hc]
    cases es with
    | nil => simp
    | cons e es' =>
      cases ds with
      | nil => simp
      | cons d ds' => simp

/-- IDs absent from the discovery batch keep their registry entry untouched. -/
theorem applyDiscovery_not_mem (ds : List Device) (reg : String → Option Device)
    (id : String) (h : ∀ d ∈ ds, d.ID ≠ id) :
    applyDiscovery reg ds id = reg id := by
  induction ds generalizing reg with
  | nil => rfl
  | cons d rest ih =>
    have hd : d.ID ≠ id := h d (List.mem_cons_self d rest)
    simp only [applyDiscovery]
    rw [ih _ (fun d' hd' => h d' (List.mem_cons_of_mem d hd'))]
    simp only [discoverStep]
    rw [if_neg (fun e => hd e.symm)]

/-- The registry merge preserves the stored `Room` of every pre-existing
entry, whatever the batch rediscovers. -/
theorem applyDiscovery_room (ds : List Device) (reg : String → Option Device)
    (id : String) (d0 : Device) (h : reg id = some d0) :
    ∃ d1, applyDiscovery reg ds id = some d1 ∧ d1.Room = d0.Room := by
  induction ds generalizing reg d0 with
  | nil => exact ⟨d0, h, rfl⟩
  | cons d rest ih =>
    simp only [applyDiscovery]
    by_cases hid : id = d.ID
    · have hm : mergeDevice reg d = { d with Room := d0.Room } := by
        rw [mergeDevice, ← hid, h]
      have hstep : discoverStep reg d id = some { d with Room := d0.Room } := by
        simp [discoverStep, hid, hm]
      obtain ⟨d1, h1, h2⟩ := ih (discoverStep reg d) { d with Room := d0.Room } hstep
      exact ⟨d1, h1, by rw [h2]⟩
    · have hstep : discoverStep reg d id = some d0 := by
        simp only [discoverStep]
        rw [if_neg hid]
        exact h
      exact ih _ _ hstep

/-- The merge never removes a registry entry. -/
theorem applyDiscovery_isSome_mono (ds : List Device) (reg : String → Option Device)
    (id : String) (h : (reg id).isSome = true) :
    ((applyDiscovery reg ds) id).isSome = true := by
  induction ds generalizing reg with
  | nil => exact h
  | cons d rest ih =>
    simp only [applyDiscovery]
    apply ih
    by_cases hid : id = d.ID
    · simp [discoverStep, hid]
    · simp only [discoverStep]
      rw [if_neg hid]
      exact h

/-- Every device of the batch has a registry entry after the merge. -/
theorem applyDiscovery_isSome_of_mem (ds : List Device) (reg : String → Option Device)
    (d : Device) (h : d ∈ ds) :
    ((applyDiscovery reg ds) d.ID).isSome = true := by
  induction ds generalizing reg with
  | nil => exact absurd h (List.not_mem_nil d)
  | cons d' rest ih =>
    simp only [applyDiscovery]
    rcases List.mem_cons.mp h with he | hm
    · apply applyDiscovery_isSome_mono
      subst he
      simp [discoverStep]
    · exact ih _ hm

/-- `lastWith?` finds a member with the asked ID. -/
theorem lastWith?_mem (ds : List Device) (id : String) (dl : Device)
    (h : lastWith? ds id = some dl) : dl ∈ ds ∧ dl.ID = id := by
  induction ds with
  | nil => simp [lastWith?] at h
  | cons d rest ih =>
    simp only [lastWith?] at h
    cases hres : lastWith? rest id with
    | some x =>
      rw [hres] at h
      injection h with h
      subst h
      obtain ⟨hm, hi⟩ := ih hres
      exact ⟨List.mem_cons_of_mem d hm, hi⟩
    | none =>
      rw [hres] at h
      by_cases hdid : d.ID = id
      · rw [if_pos hdid] at h
        injection h with h
        subst h
        exact ⟨List.mem_cons_self d rest, hdid⟩
      · rw [if_neg hdid] at h
        exact absurd h (by simp)

/-- `lastWith?` returns nothing exactly when no batch device has the ID. -/
theorem lastWith?_none_iff (ds : List Device) (id : String) :
    lastWith? ds id = none ↔ ∀ d ∈ ds, d.ID ≠ id := by
  induction ds with
  | nil => simp [lastWith?]
  | cons d rest ih =>
    simp only [lastWith?]
    cases hres : lastWith? rest id with
    | some x =>
      obtain ⟨hm, hi⟩ := lastWith?_mem rest id x hres
      simp only [hres]
      constructor
      · intro h
        exact absurd h (by simp)
      · intro h
        exact absurd hi (h x (List.mem_cons_of_mem d hm))
    | none =>
      simp only [hres]
      constructor
      · intro h
        intro d' hd'
        rcases List.mem_cons.mp hd' with he | hm
        · subst he
          intro hcontra
          rw [if_pos hcontra] at h
          exact absurd h (by simp)
        · exact (ih.mp hres) d' hm
      · intro h
        rw [if_neg (h d (List.mem_cons_self d rest))]

/-- Merging a batch into a registry that already has an entry for every batch
device: the final entry for `id` is the last batch device with that ID, its
room taken from the starting registry. -/
theorem applyDiscovery_char_some (ds : List Device) (S : String → Option Device)
    (id : String) (dl : Device)
    (hS : ∀ d ∈ ds, (S d.ID).isSome = true)
    (h : lastWith? ds id = some dl) :
    ∃ e, S id = some e ∧ applyDiscovery S ds id = some { dl with Room := e.Room } := by
  induction ds generalizing S with
  | nil => simp [lastWith?] at h
  | cons d rest ih =>
    obtain ⟨ed, hed⟩ := Option.isSome_iff_exists.mp (hS d (List.mem_cons_self d rest))
    have hmerge : mergeDevice S d = { d with Room := ed.Room } := by
      rw [mergeDevice, hed]
    have hS' : ∀ d' ∈ rest, ((discoverStep S d) d'.ID).isSome = true := by
      intro d' hd'
      by_cases hq : d'.ID = d.ID
      · simp [discoverStep, hq]
      · simp only [discoverStep]
        rw [if_neg hq]
        exact hS d' (List.mem_cons_of_mem d hd')
    simp only [lastWith?] at h
    simp only [applyDiscovery]
    cases hres : lastWith? rest id with
    | some x =>
      rw [hres] at h
      injection h with h
      subst h
      obtain ⟨e', he', happ⟩ := ih (discoverStep S d) hS' hres
      by_cases hid : id = d.ID
      · have hstep : discoverStep S d id = some { d with Room := ed.Room } := by
          simp [discoverStep, hid, hmerge]
        rw [hstep] at he'
        injection he' with he'
        refine ⟨ed, by rw [hid]; exact hed, ?_⟩
        rw [happ, ← he']
      · have hstep : discoverStep S d id = S id := by
          simp only [discoverStep]
          rw [if_neg hid]
        rw [hstep] at he'
        exact ⟨e', he', happ⟩
    | none =>
      rw [hres] at h
      by_cases hdid : d.ID = id
      · rw [if_pos hdid] at h
        injection h with h
        subst h
        have hnone : ∀ d' ∈ rest, d'.ID ≠ id := (lastWith?_none_iff rest id).mp hres
        rw [applyDiscovery_not_mem rest _ id hnone]
        refine ⟨ed, by rw [← hdid]; exact hed, ?_⟩
        simp [discoverStep, hdid.symm, hmerge]
      · rw [if_neg hdid] at h
        exact absurd h (by simp)

/-- After merging a batch whose last device for `id` is `dl`, the registry
holds `dl` with some room value. -/
theorem applyDiscovery_lastWith (ds : List Device) (reg : String → Option Device)
    (id : String) (dl : Device) (h : lastWith? ds id = some dl) :
    ∃ r, applyDiscovery reg ds id = some { dl with Room := r } := by
  induction ds generalizing reg with
  | nil => simp [lastWith?] at h
  | cons d rest ih =>
    simp only [lastWith?] at h
    simp only [applyDiscovery]
    cases hres : lastWith? rest id with
    | some x =>
      rw [hres] at h
      injection h with h
      subst h
      exact ih (discoverStep reg d) hres
    | none =>
      rw [hres] at h
      by_cases hdid : d.ID = id
      · rw [if_pos hdid] at h
        injection h with h
        subst h
        have hnone : ∀ d' ∈ rest, d'.ID ≠ id := (lastWith?_none_iff rest id).mp hres
        rw [applyDiscovery_not_mem rest _ id hnone]
        cases hreg : reg d.ID with
        | some ex =>
          exact ⟨ex.Room, by simp [discoverStep, hdid.symm, mergeDevice, hreg]⟩
        | none =>
          exact ⟨d.Room, by simp [discoverStep, hdid.symm, mergeDevice, hreg]⟩
      · rw [if_neg hdid] at h
        exact absurd h (by simp)

/-- Merging the same discovery batch twice changes nothing: rediscovery is
idempotent on the registry. -/
theorem applyDiscovery_idem (reg : String → Option Device) (ds : List Device)
    (id : String) :
    applyDiscovery (applyDiscovery reg ds) ds id = applyDiscovery reg ds id := by
  cases hl : lastWith? ds id with
  | none =>
    exact applyDiscovery_not_mem ds _ id ((lastWith?_none_iff ds id).mp hl)
  | some dl =>
    have hS : ∀ d ∈ ds, ((applyDiscovery reg ds) d.ID).isSome = true :=
      fun d hd => applyDiscovery_isSome_of_mem ds reg d hd
    obtain ⟨e, he, happ⟩ := applyDiscovery_char_some ds (applyDiscovery reg ds) id dl hS hl
    obtain ⟨r, hr⟩ := applyDiscovery_lastWith ds reg id dl hl
    rw [he] at hr
    injection hr with hr
    rw [happ, he, hr]

/-- C8: a pre-existing registry entry keeps its user-assigned Room through a
discovery merge (the entry survives, Room unchanged); merging the same batch
twice gives the same registry as merging it once; and the registry
`DiscoverAllWithProgress` leaves behind is exactly the merge of the devices
it collected. -/
theorem discovery_merge_preserves_room (reg : String → Option Device)
    (ds : List Device) (id : String) (d0 : Device)
    (h : reg id = some d0) :
    (∃ d1, applyDiscovery reg ds id = some d1 ∧ d1.Room = d0.Room)
    ∧ (∀ j, applyDiscovery (applyDiscovery reg ds) ds j = applyDiscovery reg ds j)
    ∧ (∀ results, (DiscoverAllWithProgress reg results).1
        = applyDiscovery reg (collectResults results).1) := by
  refine ⟨applyDiscovery_room ds reg id d0 h, fun j => applyDiscovery_idem reg ds j, ?_⟩
  intro results
  simp only [DiscoverAllWithProgress]
  split <;> rfl

/-- C8, witness: rediscovering `lifx:d1` with a fresh descriptor keeps the
stored Office room. -/
theorem discovery_merge_preserves_room_wit :
    (∃ d1, applyDiscovery regStored [deviceFound] ("lifx:d1") = some d1
      ∧ d1.Room = deviceStored.Room)
    ∧ (∀ j, applyDiscovery (applyDiscovery regStored [deviceFound]) [deviceFound] j
        = applyDiscovery regStored [deviceFound] j)
    ∧ (∀ results, (DiscoverAllWithProgress regStored results).1
        = applyDiscovery regStored (collectResults results).1) :=
  discovery_merge_preserves_room regStored [deviceFound] ("lifx:d1") deviceStored (by
    simp [regStored])

/-- Every event the fan-out loop emits is a `SetDeviceState` call. -/
theorem fanout_all_setDevice (setOk : String → DeviceState → Bool)
    (l : List (String × DeviceState)) :
    ∀ e ∈ fanout setOk l, ∃ d st ok, e = SceneEvent.setDevice d st ok := by
  induction l with
  | nil => simp [fanout]
  | cons p rest ih =>
    intro e he
    rw [fanout] at he
    rcases List.mem_cons.mp he with he | he
    · exact ⟨p.1, p.2, setOk p.1 p.2, he⟩
    · exact ih e he

/-- The fan-out loop issues exactly one `SetDeviceState` call per device-state
entry, in order, whatever each call returns. -/
theorem setDeviceCalls_fanout (setOk : String → DeviceState → Bool)
    (l : List (String × DeviceState)) :
    setDeviceCalls (fanout setOk l) = l := by
  induction l with
  | nil => rfl
  | cons p rest ih =>
    simp only [setDeviceCalls, fanout, List.filterMap_cons] at ih ⊢
    rw [ih]

/-- C4: activating an existing scene (with a change handler registered) marks
it active, and the event trace starts with the active-scene mark and the
notification carrying the full scene record; everything after them — in
particular every device command — is a `SetDeviceState` event, so no device
command precedes the notification. -/
theorem activateScene_notify_before_commands (scenes : List Scene)
    (active0 : String) (setOk : String → DeviceState → Bool) (id : String)
    (scene : Scene) (hs : getScene scenes id = some scene) :
    (ActivateScene scenes active0 true setOk id).activeScene = id
    ∧ ∃ cmds, (ActivateScene scenes active0 true setOk id).events
        = SceneEvent.markActive id :: SceneEvent.notify scene :: cmds
      ∧ ∀ e ∈ cmds, ∃ d st ok, e = SceneEvent.setDevice d st ok := by
  refine ⟨?_, fanout setOk scene.Devices, ?_, fanout_all_setDevice setOk scene.Devices⟩
  · simp [ActivateScene, hs]
  · simp [ActivateScene, hs]

/-- C4, witness: activating `s1` from `[sceneMeeting]` marks it active. -/
theorem activateScene_notify_before_commands_wit :
    (ActivateScene [sceneMeeting] ("x0") true (fun _ _ => false) ("s1")).activeScene
      = ("s1") :=
  (activateScene_notify_before_commands [sceneMeeting] ("x0") (fun _ _ => false)
    ("s1") sceneMeeting (by rfl)).1

/-- C5: activating an existing scene issues one `SetDeviceState` call per
entry of its device-state map — in particular a failing call never stops the
remaining entries — and the activation returns success whatever the
per-device outcomes (`setOk` is arbitrary, including all-failing). -/
theorem activateScene_best_effort (scenes : List Scene) (active0 : String)
    (hasHandler : Bool) (setOk : String → DeviceState → Bool) (id : String)
    (scene : Scene) (hs : getScene scenes id = some scene) :
    (ActivateScene scenes active0 hasHandler setOk id).result = Except.ok ()
    ∧ setDeviceCalls (ActivateScene scenes active0 hasHandler setOk id).events
        = scene.Devices := by
  refine ⟨?_, ?_⟩
  · simp [ActivateScene, hs]
  · cases hasHandler <;>
      simp [ActivateScene, hs, setDeviceCalls, List.filterMap_append] <;>
      simpa [setDeviceCalls] using setDeviceCalls_fanout setOk scene.Devices

/-- C5, witness: with every device call failing, activating `s1` still
returns success and attempts each of its entries. -/
theorem activateScene_best_effort_wit :
    (ActivateScene [sceneMeeting] ("x0") true (fun _ _ => false) ("s1")).result
      = Except.ok ()
    ∧ setDeviceCalls
        (ActivateScene [sceneMeeting] ("x0") true (fun _ _ => false) ("s1")).events
      = sceneMeeting.Devices :=
  activateScene_best_effort [sceneMeeting] ("x0") true (fun _ _ => false) ("s1")
    sceneMeeting (by rfl)

/-- C6: activating an identity no stored scene has returns NotFound and does
nothing else: no event (no notification, no device command) and the
active-scene value unchanged. -/
theorem activateScene_notFound (scenes : List Scene) (active0 : String)
    (hasHandler : Bool) (setOk : String → DeviceState → Bool) (id : String)
    (h : ∀ s ∈ scenes, s.ID ≠ id) :
    ActivateScene scenes active0 hasHandler setOk id
      = ⟨Except.error SceneError.NotFound, [], active0⟩ := by
  have hg : getScene scenes id = none :=
    List.find?_eq_none.mpr (by intro s hs; simpa using h s hs)
  simp [ActivateScene, hg]

/-- C6, witness: activating the unknown identity `zz` is a NotFound no-op. -/
theorem activateScene_notFound_wit :
    ActivateScene [sceneMeeting] ("x0") true (fun _ _ => true) ("zz")
      = ⟨Except.error SceneError.NotFound, [], ("x0")⟩ :=
  activateScene_notFound [sceneMeeting] ("x0") true (fun _ _ => true) ("zz")
    (by decide)

/-- `triggerInUse` decoded: a non-empty trigger claimed by a stored scene
other than `excludeID`. -/
theorem triggerInUse_iff (scenes : List Scene) (trigger excludeID : String) :
    triggerInUse scenes trigger excludeID = true ↔
      trigger ≠ "" ∧ ∃ s ∈ scenes, s.ID ≠ excludeID ∧ s.Trigger = trigger := by
  unfold triggerInUse
  by_cases h : trigger = ""
  · simp [h]
  · simp [h, List.any_eq_true]

/-- Unfolding `countTrigger` over a cons cell. -/
theorem countTrigger_cons (s : Scene) (rest : List Scene) (t : String) :
    countTrigger (s :: rest) t
      = countTrigger rest t + (if s.Trigger == t then 1 else 0) := by
  simp [countTrigger, List.countP_cons]

/-- `countTrigger` vanishes when no scene carries the trigger. -/
theorem countTrigger_eq_zero (scenes : List Scene) (t : String)
    (h : ∀ s ∈ scenes, s.Trigger ≠ t) : countTrigger scenes t = 0 :=
  List.countP_eq_zero.mpr (by intro s hs; simpa using h s hs)

/-- `countTrigger` over a cons whose head carries `t`. -/
theorem countTrigger_cons_pos (s : Scene) (rest : List Scene) (t : String)
    (h : s.Trigger = t) :
    countTrigger (s :: rest) t = countTrigger rest t + 1 := by
  rw [countTrigger_cons]
  simp [h]

/-- `countTrigger` over a cons whose head does not carry `t`. -/
theorem countTrigger_cons_neg (s : Scene) (rest : List Scene) (t : String)
    (h : s.Trigger ≠ t) :
    countTrigger (s :: rest) t = countTrigger rest t := by
  rw [countTrigger_cons]
  simp [h]

/-- Dropping the head never raises the count. -/
theorem countTrigger_le_cons (s : Scene) (rest : List Scene) (t : String) :
    countTrigger rest t ≤ countTrigger (s :: rest) t := by
  rw [countTrigger_cons]
  exact Nat.le_add_right _ _

/-- Upserting a scene whose trigger is not `t` cannot raise the count of
trigger `t`. -/
theorem countTrigger_upsert_of_ne (scenes : List Scene) (sc : Scene) (t : String)
    (h : sc.Trigger ≠ t) :
    countTrigger (UpsertScene scenes sc) t ≤ countTrigger scenes t := by
  induction scenes with
  | nil =>
    simp only [UpsertScene]
    rw [countTrigger_cons_neg sc [] t h]
  | cons s rest ih =>
    simp only [UpsertScene]
    by_cases hid : s.ID = sc.ID
    · rw [if_pos hid, countTrigger_cons_neg sc rest t h]
      exact countTrigger_le_cons s rest t
    · rw [if_neg hid, countTrigger_cons, countTrigger_cons]
      exact Nat.add_le_add_right ih _

/-- Upserting `sc` when every stored scene carrying `sc`'s trigger has `sc`'s
ID (and stored IDs are pairwise distinct) leaves at most one scene with that
trigger. -/
theorem countTrigger_upsert_unique (scenes : List Scene) (sc : Scene) (t : String)
    (ht : sc.Trigger = t)
    (hall : ∀ s ∈ scenes, s.Trigger = t → s.ID = sc.ID)
    (hnd : (scenes.map Scene.ID).Nodup) :
    countTrigger (UpsertScene scenes sc) t ≤ 1 := by
  induction scenes with
  | nil =>
    simp only [UpsertScene]
    rw [countTrigger_cons_pos sc [] t ht]
    simp [countTrigger]
  | cons s rest ih =>
    rw [List.map_cons, List.nodup_cons] at hnd
    simp only [UpsertScene]
    by_cases hid : s.ID = sc.ID
    · rw [if_pos hid, countTrigger_cons_pos sc rest t ht]
      have hcount : countTrigger rest t = 0 := by
        apply countTrigger_eq_zero
        intro s' hs' hth
        apply hnd.1
        rw [hid, ← hall s' (List.mem_cons_of_mem s hs') hth]
        exact List.mem_map_of_mem Scene.ID hs'
      omega
    · have hst : s.Trigger ≠ t := fun hth => hid (hall s (List.mem_cons_self s rest) hth)
      rw [if_neg hid, countTrigger_cons_neg s _ t hst]
      exact ih (fun s' hs' hth => hall s' (List.mem_cons_of_mem s hs') hth) hnd.2

/-- Upserting into a list with no scene carrying `t` leaves at most one scene
with trigger `t`. -/
theorem countTrigger_upsert_fresh (scenes : List Scene) (sc : Scene) (t : String)
    (hall : ∀ s ∈ scenes, s.Trigger ≠ t) :
    countTrigger (UpsertScene scenes sc) t ≤ 1 := by
  induction scenes with
  | nil =>
    simp only [UpsertScene]
    rw [countTrigger_cons]
    have hz : countTrigger ([] : List Scene) t = 0 := rfl
    rw [hz]
    split <;> omega
  | cons s rest ih =>
    have hsNe : s.Trigger ≠ t := hall s (List.mem_cons_self s rest)
    by_cases hid : s.ID = sc.ID
    · have hcount : countTrigger rest t = 0 :=
        countTrigger_eq_zero rest t (fun s' hs' => hall s' (List.mem_cons_of_mem s hs'))
      simp only [UpsertScene, if_pos hid]
      rw [countTrigger_cons, hcount]
      split <;> omega
    · simp only [UpsertScene, if_neg hid]
      rw [countTrigger_cons_neg s _ t hsNe]
      exact ih (fun s' hs' => hall s' (List.mem_cons_of_mem s hs'))

/-- Deleting a scene cannot raise any trigger count. -/
theorem countTrigger_delete_le (scenes : List Scene) (id t : String) :
    countTrigger (deleteScene scenes id) t ≤ countTrigger scenes t := by
  induction scenes with
  | nil => simp [deleteScene]
  | cons s rest ih =>
    simp only [deleteScene]
    by_cases hid : s.ID = id
    · rw [if_pos hid]
      exact countTrigger_le_cons s rest t
    · rw [if_neg hid, countTrigger_cons, countTrigger_cons]
      exact Nat.add_le_add_right ih _

/-- C1 (amended): over stored scene lists whose scene IDs are pairwise
distinct and non-empty, `CreateScene`/`UpdateScene` return Conflict and leave
the list unchanged whenever the (non-empty) requested trigger is already
claimed by a different scene; an empty trigger is never rejected; and
create, update and delete all preserve the at-most-one-scene-per-camera-
trigger invariant. -/
theorem sceneManager_trigger_exclusive
    (scenes : List Scene) (newID name trigger : String)
    (devices : List (String × DeviceState)) (gc : Option Color) (gk : Option Int)
    (sceneU : Scene) (delID : String)
    (hne : ∀ s ∈ scenes, s.ID ≠ "")
    (hnd : (scenes.map Scene.ID).Nodup)
    (hinv : triggerInvariant scenes) :
    (trigger ≠ "" → (∃ s ∈ scenes, s.Trigger = trigger) →
      CreateScene scenes newID name trigger devices gc gk
        = (Except.error SceneError.Conflict, scenes))
    ∧ (sceneU.Trigger ≠ "" →
        (∃ s ∈ scenes, s.ID ≠ sceneU.ID ∧ s.Trigger = sceneU.Trigger) →
        UpdateScene scenes sceneU = (Except.error SceneError.Conflict, scenes))
    ∧ (trigger = "" →
        (CreateScene scenes newID name trigger devices gc gk).1
          = Except.ok ⟨newID, name, trigger, devices, gc, gk⟩)
    ∧ (sceneU.Trigger = "" → (UpdateScene scenes sceneU).1 = Except.ok ())
    ∧ triggerInvariant (CreateScene scenes newID name trigger devices gc gk).2
    ∧ triggerInvariant (UpdateScene scenes sceneU).2
    ∧ triggerInvariant (DeleteScene scenes delID) := by
  refine ⟨?_, ?_, ?_, ?_, ?_, ?_, ?_⟩
  · rintro ht ⟨s, hs, hts⟩
    have hu : triggerInUse scenes trigger ("") = true :=
      (triggerInUse_iff scenes trigger ("")).mpr ⟨ht, s, hs, hne s hs, hts⟩
    simp [CreateScene, hu]
  · rintro ht ⟨s, hs, hid, hts⟩
    have hu : triggerInUse scenes sceneU.Trigger sceneU.ID = true :=
      (triggerInUse_iff scenes sceneU.Trigger sceneU.ID).mpr ⟨ht, s, hs, hid, hts⟩
    simp [UpdateScene, hu]
  · intro ht
    have hu : triggerInUse scenes trigger ("") = false := by
      simp [triggerInUse, ht]
    simp [CreateScene, hu]
  · intro ht
    have hu : triggerInUse scenes sceneU.Trigger sceneU.ID = false := by
      simp [triggerInUse, ht]
    simp [UpdateScene, hu]
  · cases hu : triggerInUse scenes trigger ("") with
    | true => simpa [CreateScene, hu] using hinv
    | false =>
      have hsnd : (CreateScene scenes newID name trigger devices gc gk).2
          = UpsertScene scenes ⟨newID, name, trigger, devices, gc, gk⟩ := by
        simp [CreateScene, hu]
      rw [hsnd]
      have hnotrig : ∀ t, trigger = t → t ≠ "" → ∀ s ∈ scenes, s.Trigger ≠ t := by
        intro t htr htne s hs hts
        have hcontra : triggerInUse scenes trigger ("") = true :=
          (triggerInUse_iff scenes trigger ("")).mpr
            ⟨by rw [htr]; exact htne, s, hs, hne s hs, by rw [htr]; exact hts⟩
        rw [hu] at hcontra
        exact Bool.false_ne_true hcontra
      constructor
      · by_cases htr : trigger = ("camera_on")
        · exact countTrigger_upsert_fresh scenes _ _ (hnotrig _ htr (by decide))
        · exact le_trans (countTrigger_upsert_of_ne scenes _ _ htr) hinv.1
      · by_cases htr : trigger = ("camera_off")
        · exact countTrigger_upsert_fresh scenes _ _ (hnotrig _ htr (by decide))
        · exact le_trans (countTrigger_upsert_of_ne scenes _ _ htr) hinv.2
  · cases hu : triggerInUse scenes sceneU.Trigger sceneU.ID with
    | true => simpa [UpdateScene, hu] using hinv
    | false =>
      have hsnd : (UpdateScene scenes sceneU).2 = UpsertScene scenes sceneU := by
        simp [UpdateScene, hu]
      rw [hsnd]
      have hall : ∀ t, sceneU.Trigger = t → t ≠ "" →
          ∀ s ∈ scenes, s.Trigger = t → s.ID = sceneU.ID := by
        intro t htr htne s hs hts
        by_contra hsid
        have hcontra : triggerInUse scenes sceneU.Trigger sceneU.ID = true :=
          (triggerInUse_iff scenes sceneU.Trigger sceneU.ID).mpr
            ⟨by rw [htr]; exact htne, s, hs, hsid, by rw [htr]; exact hts⟩
        rw [hu] at hcontra
        exact Bool.false_ne_true hcontra
      constructor
      · by_cases htr : sceneU.Trigger = ("camera_on")
        · exact countTrigger_upsert_unique scenes sceneU _ htr (hall _ htr (by decide)) hnd
        · exact le_trans (countTrigger_upsert_of_ne scenes _ _ htr) hinv.1
      · by_cases htr : sceneU.Trigger = ("camera_off")
        · exact countTrigger_upsert_unique scenes sceneU _ htr (hall _ htr (by decide)) hnd
        · exact le_trans (countTrigger_upsert_of_ne scenes _ _ htr) hinv.2
  · exact ⟨le_trans (countTrigger_delete_le scenes delID _) hinv.1,
      le_trans (countTrigger_delete_le scenes delID _) hinv.2⟩

/-- C1, counterexample to the unamended claim: (a) with a stored scene whose
ID is the empty string (storable through `UpdateScene`, which never validates
IDs) holding `camera_on`, `CreateScene` for `camera_on` under a different
(fresh) ID is accepted instead of rejected with Conflict, and the resulting
list has two `camera_on` scenes; (b) with two stored scenes sharing one ID,
a successful `UpdateScene` also breaks the invariant. -/
theorem sceneManager_trigger_exclusive_cex :
    ((CreateScene [sceneLegacy] ("u1") ("Work") ("camera_on") [] none none).1
        = Except.ok ⟨("u1"), ("Work"), ("camera_on"), [], none, none⟩)
    ∧ sceneLegacy.ID ≠ ("u1")
    ∧ sceneLegacy.Trigger = ("camera_on")
    ∧ triggerInvariant [sceneLegacy]
    ∧ countTrigger
        (CreateScene [sceneLegacy] ("u1") ("Work") ("camera_on") [] none none).2
        ("camera_on") = 2
    ∧ (UpdateScene [sceneDupA, sceneDupB] sceneDupU).1 = Except.ok ()
    ∧ triggerInvariant [sceneDupA, sceneDupB]
    ∧ countTrigger (UpdateScene [sceneDupA, sceneDupB] sceneDupU).2
        ("camera_on") = 2 :=
  ⟨rfl, by decide, by decide, ⟨by decide, by decide⟩, by decide, rfl,
    ⟨by decide, by decide⟩, by decide⟩

/-- C1, witness for `sceneManager_trigger_exclusive` on the one-scene store
`[sceneMeeting]`. -/
theorem sceneManager_trigger_exclusive_wit :
    triggerInvariant (DeleteScene [sceneMeeting] ("s1")) :=
  (sceneManager_trigger_exclusive [sceneMeeting] ("u1") ("New") ("") [] none none
    sceneLegacy ("s1") (by decide) (by decide) ⟨by decide, by decide⟩).2.2.2.2.2.2
